import Mathlib

/-!
A shallow embedding of the route-decomposition and live-guidance engine of the
GPS_TelegramBot repository (src/guide.py and src/main_bot.py), with theorems
checking the specification's claims against it.

Modelling conventions:
* Python floats are modelled as rationals.
* The external street graph (networkx / osmnx) is modelled by the read-only
  record `GraphView` of total lookup functions: attribute lookups in the
  source go through `.get(..., None)` and are therefore `Option`-valued.
* The external `haversine` library function (kilometre unit, the default) is a
  parameter `hav : Coordinates → Coordinates → ℚ`; the source's calls with
  `unit='m'` are modelled as `1000 * hav p q` (`haversine_m`), which is exactly
  how that library converts units.
* The external `ox.bearing.calculate_bearing` is a parameter
  `bearing : Coordinates → Coordinates → ℚ`; osmnx returns compass bearings in
  the interval `[0, 360)`.
* The external shortest-path search (`nx.shortest_path`) is a black box; its
  resulting node list is taken as the `path` argument.
* Fallible code is modelled with `Option`: `none` marks a raised Python
  exception.
-/

/-- The `(latitude, longitude)` pair used throughout the source. -/
abbrev Coordinates := ℚ × ℚ

/-- An OpenStreetMap node identifier (`OSMid = int` in guide.py). -/
abbrev OSMid := Int

/-- Read-only view of the street graph used by guide.py: node coordinates
(`graph.nodes[n]['y'], graph.nodes[n]['x']`), edge attributes
(`graph[u][v][0].get('name'/'length', None)`), and the nearest-edge query
(`ox.distance.nearest_edges`, whose key component the source discards). -/
structure GraphView where
  coordOf : OSMid → Coordinates
  edgeName : OSMid → OSMid → Option String
  edgeLength : OSMid → OSMid → Option ℚ
  nearestEdge : Coordinates → OSMid × OSMid

/-- An element of the mixed route list built in `Guide.get_directions`:
either a graph node (OSM id) or a raw coordinate point.  The end-of-route
sentinel (`None` appended at line 118 of guide.py) is modelled by wrapping
route elements in `Option`. -/
inductive WP where
  | node : OSMid → WP
  | pt : Coordinates → WP
deriving DecidableEq

/-- The `RouteLeg` dictionary built by `Guide._compute_leg_of_the_route`.
After construction `src` and `mid` always hold coordinate pairs and `dst`
holds either a coordinate pair or `None`, which is what the fields' types
record here. -/
structure RouteLeg where
  src : Coordinates
  current_name : Option String
  length : Option ℚ
  mid : Coordinates
  next_name : Option String
  dst : Option Coordinates
  angle : Option ℚ
deriving DecidableEq

/-- Coordinate resolution of a waypoint: lines 223-224 of guide.py convert an
OSM id with `_get_coordinates`; a raw coordinate pair is kept as is. -/
def resolveWP (g : GraphView) : WP → Coordinates
  | WP.node n => g.coordOf n
  | WP.pt c => c

/-- The source's `haversine(p, q, unit='m')` calls: the library scales the
kilometre value by exactly 1000. -/
def haversine_m (hav : Coordinates → Coordinates → ℚ) (p q : Coordinates) : ℚ :=
  1000 * hav p q

/-- Embeds `Guide._compute_angle` (guide.py lines 248-274): the difference of
the two initial bearings, normalized by the branch at lines 272-274. -/
def compute_angle (bearing : Coordinates → Coordinates → ℚ)
    (coordOf : OSMid → Coordinates) (src_node mid_node dst_node : OSMid) : ℚ :=
  let src_coords := coordOf src_node
  let mid_coords := coordOf mid_node
  let dst_coords := coordOf dst_node
  let angle1 := bearing src_coords mid_coords
  let angle2 := bearing mid_coords dst_coords
  let angle := angle2 - angle1
  if |angle| < 180 then angle
  else if angle < 0 then angle + 360 else angle - 360

/-- Embeds `Guide._compute_leg_of_the_route` (guide.py lines 195-246).
`dst = none` is the end-of-route sentinel (terminal leg, lines 221-225).
A `none` result marks a raised exception: in the non-terminal case the source
unconditionally runs `_get_coordinates(node=mid)` (line 234) and, when `src`
is a node, the edge lookup `graph[src][mid][0]` (line 230), both of which
raise `KeyError` unless `mid` is a graph node; in the terminal case the source
leaves `mid` untouched, and it is always a raw coordinate pair there. -/
def compute_leg_of_the_route (g : GraphView)
    (bearing : Coordinates → Coordinates → ℚ)
    (src mid : WP) (dst : Option WP) : Option RouteLeg :=
  match dst with
  | none =>
    match mid with
    | WP.pt midc =>
        some { src := resolveWP g src, current_name := none, length := none,
               mid := midc, next_name := none, dst := none, angle := none }
    | WP.node _ => none
  | some d =>
    match mid with
    | WP.node m =>
      let srcInfo : Coordinates × Option String × Option ℚ :=
        match src with
        | WP.node s => (g.coordOf s, g.edgeName s m, g.edgeLength s m)
        | WP.pt c => (c, none, none)
      let dstInfo : Coordinates × Option String :=
        match d with
        | WP.node dn => (g.coordOf dn, g.edgeName m dn)
        | WP.pt c => (c, none)
      let ang : Option ℚ :=
        match src, d with
        | WP.node s, WP.node dn => some (compute_angle bearing g.coordOf s m dn)
        | _, _ => none
      some { src := srcInfo.1, current_name := srcInfo.2.1, length := srcInfo.2.2,
             mid := g.coordOf m, next_name := dstInfo.2, dst := some dstInfo.1,
             angle := ang }
    | WP.pt _ => none

/-- Embeds the sliding-window loop of `Guide.get_directions`
(guide.py lines 122-127): one leg per index `i` in `range(len(route)-2)` from
the window `(route[i], route[i+1], route[i+2])`. -/
def compute_legs (g : GraphView) (bearing : Coordinates → Coordinates → ℚ) :
    List (Option WP) → Option (List RouteLeg)
  | [] => some []
  | x :: rest =>
    match x, rest with
    | some a, some b :: c :: _ =>
      match compute_leg_of_the_route g bearing a b c with
      | none => none
      | some leg =>
        match compute_legs g bearing rest with
        | none => none
        | some restLegs => some (leg :: restLegs)
    | _, _ => some []

/-- Embeds the last-mile post-processing step of `Guide.get_directions`
(guide.py lines 129-151): with at least 3 legs, compare the penultimate leg's
`src`-to-`dst` distance with its `mid`-to-`dst` distance (kilometre unit,
lines 139-140); when the former is larger, collapse the last two legs.  The
`none` result marks the `TypeError` `haversine` would raise if the penultimate
leg's `dst` were `None`. -/
def simplify_last_mile (hav : Coordinates → Coordinates → ℚ)
    (directions : List RouteLeg) : Option (List RouteLeg) :=
  if 3 ≤ directions.length then
    match directions.reverse with
    | _lastLeg :: penult :: rest =>
      match penult.dst with
      | none => none
      | some pd =>
        let penult_dist := hav penult.src pd
        let last_dist := hav penult.mid pd
        if penult_dist > last_dist then
          let collapsed : RouteLeg :=
            { penult with
              mid := pd
              dst := none
              length := some (haversine_m hav penult.src pd) }
          some ((collapsed :: rest).reverse)
        else some directions
    | _ => some directions
  else some directions

/-- The condition under which the last-mile post-processing actually rewrites
the leg list (guide.py lines 132 and 142): at least 3 legs and
`penult_dist > last_dist`. -/
def simplification_triggers (hav : Coordinates → Coordinates → ℚ)
    (directions : List RouteLeg) : Bool :=
  if 3 ≤ directions.length then
    match directions.reverse with
    | _lastLeg :: penult :: _rest =>
      match penult.dst with
      | none => false
      | some pd => decide (hav penult.src pd > hav penult.mid pd)
    | _ => false
  else false

/-- The full route list of `Guide.get_directions` (guide.py lines 112-118):
source coordinates inserted at the front, destination coordinates appended,
and the `None` end-of-route sentinel appended last. -/
def route_waypoints (src_coords dst_coords : Coordinates)
    (path : List OSMid) : List (Option WP) :=
  (WP.pt src_coords :: (path.map WP.node ++ [WP.pt dst_coords])).map some ++ [none]

/-- Embeds `Guide.get_directions` (guide.py lines 81-153), taking the
shortest-path node list (an external capability in the source) as the `path`
argument: build the legs over the waypoint windows, then run the last-mile
post-processing step. -/
def get_directions (g : GraphView) (bearing hav : Coordinates → Coordinates → ℚ)
    (src_coords dst_coords : Coordinates) (path : List OSMid) :
    Option (List RouteLeg) :=
  match compute_legs g bearing (route_waypoints src_coords dst_coords path) with
  | none => none
  | some directions => simplify_last_mile hav directions

/-- Embeds `Guide._get_nearest_node` (guide.py lines 155-180): take the
endpoints `(u, v)` of the nearest edge, compute the haversine distance
(kilometre unit) from the query point to each, and return
`u if du == min(du, dv) else v`. -/
def get_nearest_node (g : GraphView) (hav : Coordinates → Coordinates → ℚ)
    (coords : Coordinates) : OSMid :=
  let uv := g.nearestEdge coords
  let point_u := g.coordOf uv.1
  let point_v := g.coordOf uv.2
  let du := hav coords point_u
  let dv := hav coords point_v
  if du = min du dv then uv.1 else uv.2

/-- Embeds `_is_moving_away_from_the_route` (main_bot.py lines 34-55):
the new position is more than `margin` metres farther from the checkpoint
than the last recorded position was. -/
def is_moving_away_from_the_route (hav : Coordinates → Coordinates → ℚ)
    (current_coords last_coords checkpoint : Coordinates) (margin : ℚ) : Bool :=
  let last_distance := haversine_m hav last_coords checkpoint
  let current_distance := haversine_m hav current_coords checkpoint
  decide (current_distance > last_distance + margin)

/-- Embeds `_are_next_to_each_other` (main_bot.py lines 58-75): the two points
are at most `margin` metres apart. -/
def are_next_to_each_other (hav : Coordinates → Coordinates → ℚ)
    (p1 p2 : Coordinates) (margin : ℚ) : Bool :=
  decide (haversine_m hav p1 p2 ≤ margin)

/-- Embeds `_round5` (main_bot.py lines 78-88): `n5 = int((n // 5) * 5)`,
returned as is when `n % 5 <= 2`, else `n5 + 5`. -/
def round5 (n : ℚ) : Int :=
  let n5 : Int := ⌊n / 5⌋ * 5
  if n - 5 * ⌊n / 5⌋ ≤ 2 then n5 else n5 + 5

/-- The body of `_get_turning_message` (main_bot.py lines 91-121) for a
non-`None` angle (for such an angle the `or angle is None` disjunct at
line 108 is dead code). -/
def turning_message (angle : ℚ) : String :=
  if |angle| < 22.5 then
    "Go straight ahead ⬆️"
  else
    let dir : String := if angle < 0 then "left" else "right"
    if |angle| < 67.5 then
      let sym : String := if dir = "right" then "↗️" else "↖️"
      "Half-turn to the " ++ dir ++ " " ++ sym
    else if |angle| < 112.5 then
      let sym : String := if dir = "right" then "➡️" else "⬅️"
      "Turn to the " ++ dir ++ " " ++ sym
    else
      let sym : String := if dir = "right" then "↘️" else "↙️"
      "Sharp turn to the " ++ dir ++ " " ++ sym

/-- Embeds `_get_turning_message` (main_bot.py lines 91-121) including its
behaviour on `None`: line 108 evaluates `abs(angle)` before the
`angle is None` test, so a `None` argument raises `TypeError` — modelled as
`none` — instead of reaching the straight-ahead branch. -/
def get_turning_message (angle : Option ℚ) : Option String :=
  match angle with
  | none => none
  | some a => some (turning_message a)

/-- Demo haversine function that is identically zero (every pair of points is
at distance 0). -/
def havZero : Coordinates → Coordinates → ℚ := fun _ _ => 0

/-- Demo haversine function: the squared euclidean distance, a nonnegative,
concrete stand-in for the great-circle distance. -/
def havSq : Coordinates → Coordinates → ℚ :=
  fun p q => (p.1 - q.1) * (p.1 - q.1) + (p.2 - q.2) * (p.2 - q.2)

/-- Demo bearing function that is identically zero. -/
def bearingZero : Coordinates → Coordinates → ℚ := fun _ _ => 0

/-- Demo graph: node `n` sits at latitude `n`, longitude 0; no edge
attributes are known; the nearest edge to any point is `(1, 2)`. -/
def gEx : GraphView :=
  { coordOf := fun n => ((n : ℚ), 0)
    edgeName := fun _ _ => none
    edgeLength := fun _ _ => none
    nearestEdge := fun _ => (1, 2) }

/-- Bearing data of two points on one meridian: the initial bearing from
`(0, 0)` to `(1, 0)` is exactly 0 (due north) and from `(1, 0)` to `(0, 0)`
exactly 180 (due south); these are the true great-circle values. -/
def bearingMeridian : Coordinates → Coordinates → ℚ :=
  fun p _ => if p = ((0 : ℚ), (0 : ℚ)) then 0 else 180

/-- Node layout for the meridian example: node 0 at `(0, 0)`, every other
node at `(1, 0)`. -/
def coordMeridian : OSMid → Coordinates :=
  fun n => if n = 0 then (0, 0) else (1, 0)

/-- C2 counterexample: the normalized turn angle is not always strictly
greater than -180.  With bearings on one meridian (0 due north, 180 due
south — genuine bearing values, all inside `[0, 360)`) the raw difference is
exactly 180, and the normalization branch returns `180 - 360 = -180`. -/
theorem compute_angle_claim_counterexample :
    ¬ (∀ (bearing : Coordinates → Coordinates → ℚ)
         (coordOf : OSMid → Coordinates) (s m d : OSMid),
         (∀ p q : Coordinates, 0 ≤ bearing p q ∧ bearing p q < 360) →
         -180 < compute_angle bearing coordOf s m d ∧
           compute_angle bearing coordOf s m d ≤ 180) := by
  intro h
  have hb : ∀ p q : Coordinates, 0 ≤ bearingMeridian p q ∧ bearingMeridian p q < 360 := by
    intro p q
    unfold bearingMeridian
    split <;> norm_num
  have h1 := (h bearingMeridian coordMeridian 0 1 0 hb).1
  have hval : compute_angle bearingMeridian coordMeridian 0 1 0 = -180 := by
    norm_num [compute_angle, bearingMeridian, coordMeridian]
  rw [hval] at h1
  exact absurd h1 (by norm_num)

/-- C2 amended: for bearings in `[0, 360)` the normalized turn angle always
lies in the closed interval `[-180, 180]` (both endpoints are attainable, so
neither bound can be made strict). -/
theorem compute_angle_range (bearing : Coordinates → Coordinates → ℚ)
    (coordOf : OSMid → Coordinates) (s m d : OSMid)
    (hb : ∀ p q : Coordinates, 0 ≤ bearing p q ∧ bearing p q < 360) :
    -180 ≤ compute_angle bearing coordOf s m d ∧
      compute_angle bearing coordOf s m d ≤ 180 := by
  obtain ⟨h10, h11⟩ := hb (coordOf s) (coordOf m)
  obtain ⟨h20, h21⟩ := hb (coordOf m) (coordOf d)
  unfold compute_angle
  dsimp only
  split_ifs with h1 h2
  · rw [abs_lt] at h1
    constructor <;> linarith
  · rw [not_lt] at h1
    rcases le_abs.mp h1 with h3 | h3
    · constructor <;> linarith
    · constructor <;> linarith
  · rw [not_lt] at h1
    rw [not_lt] at h2
    rcases le_abs.mp h1 with h3 | h3
    · constructor <;> linarith
    · constructor <;> linarith

/-- Witness for the amended C2 theorem at a concrete bearing function. -/
theorem compute_angle_range_witness :
    -180 ≤ compute_angle bearingZero (fun _ => ((0 : ℚ), 0)) 0 0 0 ∧
      compute_angle bearingZero (fun _ => ((0 : ℚ), 0)) 0 0 0 ≤ 180 :=
  compute_angle_range bearingZero (fun _ => ((0 : ℚ), 0)) 0 0 0
    (fun _ _ => ⟨le_refl 0, by norm_num [bearingZero]⟩)

/-- C3 (code bug): on an absent angle the turn-message function raises
(`abs(None)` is evaluated before `angle is None`), modelled by the `none`
result, instead of returning the straight-ahead message; for present angles
the categories match the claimed thresholds, sampled here on both sides of
every boundary. -/
theorem turning_message_none_raises :
    get_turning_message none = none ∧
      get_turning_message (some 10) = some "Go straight ahead ⬆️" ∧
      get_turning_message (some (-10)) = some "Go straight ahead ⬆️" ∧
      get_turning_message (some (22.5 : ℚ)) = some "Half-turn to the right ↗️" ∧
      get_turning_message (some 45) = some "Half-turn to the right ↗️" ∧
      get_turning_message (some (-45)) = some "Half-turn to the left ↖️" ∧
      get_turning_message (some (67.5 : ℚ)) = some "Turn to the right ➡️" ∧
      get_turning_message (some 90) = some "Turn to the right ➡️" ∧
      get_turning_message (some (-90)) = some "Turn to the left ⬅️" ∧
      get_turning_message (some (112.5 : ℚ)) = some "Sharp turn to the right ↘️" ∧
      get_turning_message (some 130) = some "Sharp turn to the right ↘️" ∧
      get_turning_message (some (-130)) = some "Sharp turn to the left ↙️" := by
  norm_num [get_turning_message, turning_message, abs_of_nonneg, abs_of_nonpos]
  decide

/-- C9: nearest-node resolution returns the strictly closer endpoint of the
nearest edge, and endpoint `u` on a tie. -/
theorem get_nearest_node_picks_closer (g : GraphView)
    (hav : Coordinates → Coordinates → ℚ) (coords : Coordinates) :
    (hav coords (g.coordOf (g.nearestEdge coords).1) <
         hav coords (g.coordOf (g.nearestEdge coords).2) →
       get_nearest_node g hav coords = (g.nearestEdge coords).1) ∧
    (hav coords (g.coordOf (g.nearestEdge coords).1) =
         hav coords (g.coordOf (g.nearestEdge coords).2) →
       get_nearest_node g hav coords = (g.nearestEdge coords).1) ∧
    (hav coords (g.coordOf (g.nearestEdge coords).2) <
         hav coords (g.coordOf (g.nearestEdge coords).1) →
       get_nearest_node g hav coords = (g.nearestEdge coords).2) := by
  unfold get_nearest_node
  dsimp only
  refine ⟨fun h => ?_, fun h => ?_, fun h => ?_⟩
  · rw [if_pos]
    rw [min_eq_left (le_of_lt h)]
  · rw [if_pos]
    rw [min_eq_left (le_of_eq h)]
  · rw [if_neg]
    rw [min_eq_right (le_of_lt h)]
    exact ne_of_gt h

/-- Witness for C9 on the demo graph: node 1 (squared distance 1) beats
node 2 (squared distance 4). -/
theorem get_nearest_node_picks_closer_witness :
    get_nearest_node gEx havSq (0, 0) = (gEx.nearestEdge (0, 0)).1 :=
  (get_nearest_node_picks_closer gEx havSq (0, 0)).1 (by norm_num [havSq, gEx])

/-- C8 counterexample: with an empty path the leg builder does not fail fast;
it returns a normal one-leg route going straight from the start point to the
destination point. -/
theorem get_directions_empty_path_counterexample :
    get_directions gEx bearingZero havZero (0, 0) (1, 1) [] =
      some [{ src := (0, 0), current_name := none, length := none, mid := (1, 1),
              next_name := none, dst := none, angle := none }] := by
  decide

/-- C8 amended: for every graph, distance and bearing oracle, and every start
and end coordinate, leg building with an empty path returns the degenerate
one-leg route from the start straight to the destination (checkpoint = end,
no to-point, no street names, no length, no turn angle) — it never fails
fast. -/
theorem get_directions_empty_path (g : GraphView)
    (bearing hav : Coordinates → Coordinates → ℚ)
    (src_coords dst_coords : Coordinates) :
    get_directions g bearing hav src_coords dst_coords [] =
      some [{ src := src_coords, current_name := none, length := none,
              mid := dst_coords, next_name := none, dst := none, angle := none }] := by
  rfl

/-- The data interpolated into the text built by `_get_next_checkpoint_message`
(main_bot.py lines 124-176); this record holds each value the function embeds
into its message, in source order, instead of the formatted string. -/
structure NextCheckpointMsg where
  checkpoint_number : Nat
  at_coords : Coordinates
  next_coords : Coordinates
  street_name : Option String
  distance : Int
  destination_is_next : Bool
  current_street : Option String
  turning : Option String
deriving DecidableEq

/-- Embeds `_get_next_checkpoint_message` (main_bot.py lines 124-176) as a
function of the user data it unpacks (`directions` and `current_leg`): the
reached/next checkpoint header from `directions[current_leg]`, the optional
next street name, the rounded distance (edge length, or metre haversine
fallback), and either the final-approach branch (`dst is None`) or the
go-straight branch with its optional lower-cased turning reminder for angles
above 22.5 degrees.  A `none` result marks the `IndexError` an out-of-range
`current_leg` would raise. -/
def get_next_checkpoint_message (hav : Coordinates → Coordinates → ℚ)
    (directions : List RouteLeg) (current_leg : Nat) : Option NextCheckpointMsg :=
  match directions.get? current_leg with
  | none => none
  | some leg =>
    let distance := round5 (leg.length.getD (haversine_m hav leg.src leg.mid))
    match leg.dst with
    | none =>
      some { checkpoint_number := current_leg, at_coords := leg.src,
             next_coords := leg.mid, street_name := leg.next_name,
             distance := distance, destination_is_next := true,
             current_street := none, turning := none }
    | some _ =>
      let current_street := leg.current_name.getD "the street"
      let turning : Option String :=
        match leg.angle with
        | some a => if 22.5 < |a| then some (turning_message a).toLower else none
        | none => none
      some { checkpoint_number := current_leg, at_coords := leg.src,
             next_coords := leg.mid, street_name := leg.next_name,
             distance := distance, destination_is_next := false,
             current_street := some current_street, turning := turning }

/-- The messages `process_user_location` can produce for a location update
(main_bot.py lines 389-537); `checkpoint_reached` carries the checkpoint
message data and the optional turning reminder of lines 499-513. -/
inductive GuidanceEvent where
  | first_location : GuidanceEvent
  | no_route : GuidanceEvent
  | gps_error : GuidanceEvent
  | off_route_warning : GuidanceEvent
  | route_completed : GuidanceEvent
  | checkpoint_reached : Option NextCheckpointMsg → Option String → GuidanceEvent
  | no_op : GuidanceEvent
deriving DecidableEq

/-- The per-user session data kept in `context.user_data`: the last recorded
location (`'current_location'`, absent before the first update) and, while a
route is programmed, the `'directions'` list with the `'current_leg'`
progress index (`'dst_name'` and `'route_id'` carry no guidance state). -/
structure SessionState where
  current_location : Option Coordinates
  route : Option (List RouteLeg × Nat)
deriving DecidableEq

/-- Embeds the state transition of `process_user_location`
(main_bot.py lines 389-537) for one incoming location:  the first-ever
location is only recorded (lines 415-427); otherwise the location is
recorded, and with a programmed route the handler warns when
`_is_moving_away_from_the_route` holds (lines 447-459), else on
`_are_next_to_each_other` with the current leg's `mid` it either completes
the route (deleting it, lines 467-495) or emits the next-checkpoint message
built from `directions[current_leg]` with the optional turning reminder and
only then increments `current_leg` (lines 497-525), else does nothing
(line 526).  `gps_error` models the `except` path for an out-of-range leg
index. -/
def process_user_location (hav : Coordinates → Coordinates → ℚ)
    (s : SessionState) (current_loc : Coordinates) :
    SessionState × GuidanceEvent :=
  match s.current_location with
  | none =>
    ({ s with current_location := some current_loc }, GuidanceEvent.first_location)
  | some last_location =>
    let s1 : SessionState := { s with current_location := some current_loc }
    match s1.route with
    | none => (s1, GuidanceEvent.no_route)
    | some (directions, i) =>
      match directions.get? i with
      | none => (s1, GuidanceEvent.gps_error)
      | some leg =>
        let checkpoint := leg.mid
        if is_moving_away_from_the_route hav current_loc last_location checkpoint 15 then
          (s1, GuidanceEvent.off_route_warning)
        else if are_next_to_each_other hav current_loc checkpoint 15 then
          if i + 1 = directions.length then
            ({ current_location := some current_loc, route := none },
             GuidanceEvent.route_completed)
          else
            ({ current_location := some current_loc, route := some (directions, i + 1) },
             GuidanceEvent.checkpoint_reached
               (get_next_checkpoint_message hav directions i)
               (leg.angle.map turning_message))
        else (s1, GuidanceEvent.no_op)

/-- A sequential stream of location updates fed through
`process_user_location`, one call per sample. -/
def run_location_updates (hav : Coordinates → Coordinates → ℚ)
    (s : SessionState) : List Coordinates → SessionState
  | [] => s
  | loc :: rest =>
    run_location_updates hav (process_user_location hav s loc).1 rest

/-- First leg of the three-leg demo route: from the start to node coordinates
`(1, 1)`. -/
def legA : RouteLeg :=
  { src := (0, 0), current_name := some "A Street", length := some 100,
    mid := (1, 1), next_name := some "B Street", dst := some (2, 2), angle := none }

/-- Second leg of the three-leg demo route. -/
def legB : RouteLeg :=
  { src := (1, 1), current_name := some "B Street", length := some 200,
    mid := (2, 2), next_name := some "C Street", dst := some (3, 3), angle := none }

/-- Terminal leg of the three-leg demo route. -/
def legC : RouteLeg :=
  { src := (2, 2), current_name := none, length := none,
    mid := (3, 3), next_name := none, dst := none, angle := none }

/-- The three-leg demo route. -/
def dsEx : List RouteLeg := [legA, legB, legC]

/-- A session at the start of the demo route, with a recorded location. -/
def sEx : SessionState :=
  { current_location := some (0, 0), route := some (dsEx, 0) }

/-- Case analysis of one `process_user_location` call: either the route field
is untouched (with a non-advancing event), or the route is deleted on
completion, or the leg index advances by exactly one on a reached
checkpoint. -/
theorem step_cases (hav : Coordinates → Coordinates → ℚ)
    (s : SessionState) (loc : Coordinates) :
    ((process_user_location hav s loc).1.route = s.route ∧
       ((process_user_location hav s loc).2 = GuidanceEvent.first_location ∨
        (process_user_location hav s loc).2 = GuidanceEvent.no_route ∨
        (process_user_location hav s loc).2 = GuidanceEvent.gps_error ∨
        (process_user_location hav s loc).2 = GuidanceEvent.off_route_warning ∨
        (process_user_location hav s loc).2 = GuidanceEvent.no_op)) ∨
    ((process_user_location hav s loc).1.route = none ∧
       (process_user_location hav s loc).2 = GuidanceEvent.route_completed) ∨
    (∃ ds i, s.route = some (ds, i) ∧
       (process_user_location hav s loc).1.route = some (ds, i + 1) ∧
       ∃ m r, (process_user_location hav s loc).2 = GuidanceEvent.checkpoint_reached m r) := by
  obtain ⟨cl, rt⟩ := s
  rcases cl with _ | last
  · left
    exact ⟨rfl, Or.inl rfl⟩
  · rcases rt with _ | ⟨ds, i⟩
    · left
      exact ⟨rfl, Or.inr (Or.inl rfl)⟩
    · simp only [process_user_location]
      rcases hget : ds.get? i with _ | leg
      · left
        exact ⟨rfl, Or.inr (Or.inr (Or.inl rfl))⟩
      · dsimp only
        split_ifs with h1 h2 h3
        · left
          exact ⟨rfl, Or.inr (Or.inr (Or.inr (Or.inl rfl)))⟩
        · right; left
          exact ⟨rfl, rfl⟩
        · right; right
          exact ⟨ds, i, rfl, rfl, _, _, rfl⟩
        · left
          exact ⟨rfl, Or.inr (Or.inr (Or.inr (Or.inr rfl)))⟩

/-- Once the route is gone (completed or never programmed), no stream of
location updates brings it back. -/
theorem run_route_none (hav : Coordinates → Coordinates → ℚ)
    (locs : List Coordinates) :
    ∀ s : SessionState, s.route = none →
      (run_location_updates hav s locs).route = none := by
  induction locs with
  | nil => intro s h; exact h
  | cons loc rest ih =>
    intro s h
    rcases step_cases hav s loc with ⟨h1, _⟩ | ⟨h1, _⟩ | ⟨ds, i, h2, _⟩
    · exact ih _ (h1.trans h)
    · exact ih _ h1
    · rw [h] at h2
      exact Option.noConfusion h2

/-- C7: the leg index is non-decreasing across any sequence of location
updates, a single call changes it by at most one, and a call whose outcome is
an off-route warning or a no-op leaves the route (hence the leg index)
untouched. -/
theorem current_leg_monotone (hav : Coordinates → Coordinates → ℚ) :
    (∀ (s : SessionState) (loc : Coordinates) (ds : List RouteLeg) (i : Nat),
       s.route = some (ds, i) →
       (process_user_location hav s loc).1.route = none ∨
         ∃ i2, (process_user_location hav s loc).1.route = some (ds, i2) ∧
           (i2 = i ∨ i2 = i + 1)) ∧
    (∀ (s : SessionState) (loc : Coordinates),
       (process_user_location hav s loc).2 = GuidanceEvent.off_route_warning ∨
         (process_user_location hav s loc).2 = GuidanceEvent.no_op →
       (process_user_location hav s loc).1.route = s.route) ∧
    (∀ (locs : List Coordinates) (s : SessionState) (ds : List RouteLeg) (i : Nat),
       s.route = some (ds, i) →
       (run_location_updates hav s locs).route = none ∨
         ∃ i2, (run_location_updates hav s locs).route = some (ds, i2) ∧ i ≤ i2) := by
  refine ⟨?_, ?_, ?_⟩
  · intro s loc ds i h
    rcases step_cases hav s loc with ⟨h1, _⟩ | ⟨h1, _⟩ | ⟨ds2, i2, h2, h3, _⟩
    · right
      exact ⟨i, h1.trans h, Or.inl rfl⟩
    · left
      exact h1
    · rw [h] at h2
      injection h2 with hpair
      injection hpair with hds hi
      subst hds
      subst hi
      right
      exact ⟨i + 1, h3, Or.inr rfl⟩
  · intro s loc h
    rcases step_cases hav s loc with ⟨h1, _⟩ | ⟨h1, h2⟩ | ⟨ds2, i2, h2, h3, m, r, h4⟩
    · exact h1
    · rcases h with h | h <;> rw [h2] at h <;> exact GuidanceEvent.noConfusion h
    · rcases h with h | h <;> rw [h4] at h <;> exact GuidanceEvent.noConfusion h
  · intro locs
    induction locs with
    | nil =>
      intro s ds i h
      right
      exact ⟨i, h, Nat.le_refl i⟩
    | cons loc rest ih =>
      intro s ds i h
      simp only [run_location_updates]
      rcases step_cases hav s loc with ⟨h1, _⟩ | ⟨h1, _⟩ | ⟨ds2, i2, h2, h3, _⟩
      · exact ih _ ds i (h1.trans h)
      · left
        exact run_route_none hav rest _ h1
      · rw [h] at h2
        injection h2 with hpair
        injection hpair with hds hi
        subst hds
        subst hi
        rcases ih _ ds (i + 1) h3 with h4 | ⟨i3, h4, h5⟩
        · left
          exact h4
        · right
          exact ⟨i3, h4, Nat.le_trans (Nat.le_succ i) h5⟩

/-- Witness for C7: one reached-checkpoint update on the demo session. -/
theorem current_leg_monotone_witness :
    (run_location_updates havZero sEx [(1, 1)]).route = none ∨
      ∃ i2, (run_location_updates havZero sEx [(1, 1)]).route = some (dsEx, i2) ∧
        0 ≤ i2 :=
  (current_leg_monotone havZero).2.2 [(1, 1)] sEx dsEx 0 rfl

/-- C10: with a nonnegative distance function the moving-away test and the
reached-checkpoint test (margin 15 metres in both) can never both hold, so
the handler checking the moving-away test first can never suppress a
checkpoint arrival: whenever the reached test holds for the current leg's
checkpoint, the emitted event is route completion or checkpoint reached. -/
theorem moving_away_and_reached_exclusive (hav : Coordinates → Coordinates → ℚ)
    (hnn : ∀ p q : Coordinates, 0 ≤ hav p q) :
    (∀ current_coords last_coords checkpoint : Coordinates,
       ¬ (is_moving_away_from_the_route hav current_coords last_coords checkpoint 15 = true ∧
          are_next_to_each_other hav current_coords checkpoint 15 = true)) ∧
    (∀ (s : SessionState) (last loc : Coordinates) (ds : List RouteLeg)
       (i : Nat) (leg : RouteLeg),
       s.current_location = some last → s.route = some (ds, i) →
       ds.get? i = some leg →
       are_next_to_each_other hav loc leg.mid 15 = true →
       (process_user_location hav s loc).2 = GuidanceEvent.route_completed ∨
         ∃ m r, (process_user_location hav s loc).2 = GuidanceEvent.checkpoint_reached m r) := by
  have key : ∀ current_coords last_coords checkpoint : Coordinates,
      ¬ (is_moving_away_from_the_route hav current_coords last_coords checkpoint 15 = true ∧
         are_next_to_each_other hav current_coords checkpoint 15 = true) := by
    intro cur last cp h
    obtain ⟨h1, h2⟩ := h
    simp only [is_moving_away_from_the_route, are_next_to_each_other, haversine_m,
      decide_eq_true_eq] at h1 h2
    have h3 := hnn last cp
    linarith
  refine ⟨key, ?_⟩
  intro s last loc ds i leg hcl hrt hget hreach
  obtain ⟨cl, rt⟩ := s
  dsimp only at hcl hrt
  subst hcl
  subst hrt
  have hm : is_moving_away_from_the_route hav loc last leg.mid 15 = false := by
    rcases Bool.eq_false_or_eq_true
        (is_moving_away_from_the_route hav loc last leg.mid 15) with hb | hb
    · exact absurd ⟨hb, hreach⟩ (key loc last leg.mid)
    · exact hb
  simp only [process_user_location]
  rw [hget]
  dsimp only
  rw [hm, hreach]
  simp only [Bool.false_eq_true, if_false, if_true]
  split_ifs with h3
  · left
    rfl
  · right
    exact ⟨_, _, rfl⟩

/-- Witness for C10 with the zero distance function. -/
theorem moving_away_and_reached_exclusive_witness :
    ¬ (is_moving_away_from_the_route havZero (0, 0) (0, 0) (1, 1) 15 = true ∧
       are_next_to_each_other havZero (0, 0) (1, 1) 15 = true) :=
  (moving_away_and_reached_exclusive havZero (fun _ _ => le_refl 0)).1 (0, 0) (0, 0) (1, 1)

/-- C1 (code bug): reaching leg 0's checkpoint on the demo route advances the
session to leg 1 but emits the checkpoint message built from
`directions[0]` — the leg whose checkpoint was just reached — because
`current_leg` is incremented only after the message is built; that message
differs from the one the new current leg 1 would give. -/
theorem checkpoint_message_uses_stale_leg :
    (process_user_location havZero sEx (1, 1)).1 =
        { current_location := some (1, 1), route := some (dsEx, 1) } ∧
    (process_user_location havZero sEx (1, 1)).2 =
        GuidanceEvent.checkpoint_reached (get_next_checkpoint_message havZero dsEx 0) none ∧
    get_next_checkpoint_message havZero dsEx 0 ≠ get_next_checkpoint_message havZero dsEx 1 := by
  have hstep : process_user_location havZero sEx (1, 1) =
      ({ current_location := some (1, 1), route := some (dsEx, 1) },
       GuidanceEvent.checkpoint_reached (get_next_checkpoint_message havZero dsEx 0) none) := by
    simp [process_user_location, sEx, dsEx, legA, is_moving_away_from_the_route,
      are_next_to_each_other, haversine_m, havZero]
  refine ⟨?_, ?_, ?_⟩
  · rw [hstep]
  · rw [hstep]
  · simp [get_next_checkpoint_message, dsEx, legA, legB]

/-- Value of the leg builder on a terminal window (sentinel `dst`). -/
theorem compute_leg_terminal (g : GraphView)
    (bearing : Coordinates → Coordinates → ℚ) (a : WP) (c : Coordinates) :
    compute_leg_of_the_route g bearing a (WP.pt c) none =
      some { src := resolveWP g a, current_name := none, length := none,
             mid := c, next_name := none, dst := none, angle := none } :=
  rfl

/-- Value of the leg builder on a non-terminal window whose middle waypoint
is a graph node and whose forward waypoint is a raw coordinate pair (the
second-to-last window). -/
theorem compute_leg_inner_pt (g : GraphView)
    (bearing : Coordinates → Coordinates → ℚ) (a : WP) (n : OSMid)
    (c : Coordinates) :
    compute_leg_of_the_route g bearing a (WP.node n) (some (WP.pt c)) =
      some { src := resolveWP g a,
             current_name := (match a with
                              | WP.node s => g.edgeName s n
                              | WP.pt _ => none),
             length := (match a with
                        | WP.node s => g.edgeLength s n
                        | WP.pt _ => none),
             mid := g.coordOf n,
             next_name := none,
             dst := some c,
             angle := none } := by
  cases a <;> rfl

/-- Value of the leg builder on a non-terminal window whose middle and
forward waypoints are both graph nodes. -/
theorem compute_leg_inner_node (g : GraphView)
    (bearing : Coordinates → Coordinates → ℚ) (a : WP) (n m : OSMid) :
    compute_leg_of_the_route g bearing a (WP.node n) (some (WP.node m)) =
      some { src := resolveWP g a,
             current_name := (match a with
                              | WP.node s => g.edgeName s n
                              | WP.pt _ => none),
             length := (match a with
                        | WP.node s => g.edgeLength s n
                        | WP.pt _ => none),
             mid := g.coordOf n,
             next_name := g.edgeName n m,
             dst := some (g.coordOf m),
             angle := (match a with
                       | WP.node s => some (compute_angle bearing g.coordOf s n m)
                       | WP.pt _ => none) } := by
  cases a <;> rfl

/-- One unfolding step of the sliding-window loop. -/
theorem compute_legs_cons (g : GraphView)
    (bearing : Coordinates → Coordinates → ℚ) (a b : WP) (c : Option WP)
    (l : List (Option WP)) :
    compute_legs g bearing (some a :: some b :: c :: l) =
      (match compute_leg_of_the_route g bearing a b c with
       | none => none
       | some leg =>
         match compute_legs g bearing (some b :: c :: l) with
         | none => none
         | some restLegs => some (leg :: restLegs)) :=
  rfl

/-- Shape of the raw leg list built over the waypoint sequence
`a :: nodes ++ [destination]` with the sentinel appended: it always succeeds,
produces one leg per window, its first leg starts at the resolved first
waypoint, its last leg is the terminal leg into the destination, and the leg
before the terminal one (when it exists) has the raw destination as its
`dst`. -/
theorem compute_legs_shape (g : GraphView)
    (bearing : Coordinates → Coordinates → ℚ) (d : Coordinates) :
    ∀ (ns : List OSMid) (a : WP),
      ∃ raw : List RouteLeg,
        compute_legs g bearing
            ((a :: (ns.map WP.node ++ [WP.pt d])).map some ++ [none]) = some raw ∧
        raw.length = ns.length + 1 ∧
        raw.head?.map RouteLeg.src = some (resolveWP g a) ∧
        ∃ t rest, raw.reverse = t :: rest ∧ t.mid = d ∧ t.dst = none ∧
          (rest = [] ∨ ∃ p rest2, rest = p :: rest2 ∧ p.dst = some d) := by
  intro ns
  induction ns with
  | nil =>
    intro a
    refine ⟨[{ src := resolveWP g a, current_name := none, length := none,
               mid := d, next_name := none, dst := none, angle := none }],
            rfl, rfl, rfl, ?_⟩
    exact ⟨_, [], rfl, rfl, rfl, Or.inl rfl⟩
  | cons n ns2 ih =>
    intro a
    obtain ⟨raw2, h1, h2, h3, t, rest0, h4, h5, h6, h7⟩ := ih (WP.node n)
    cases ns2 with
    | nil =>
      refine ⟨{ src := resolveWP g a,
                current_name := (match a with
                                 | WP.node s => g.edgeName s n
                                 | WP.pt _ => none),
                length := (match a with
                           | WP.node s => g.edgeLength s n
                           | WP.pt _ => none),
                mid := g.coordOf n,
                next_name := none,
                dst := some d,
                angle := none } :: raw2, ?_, ?_, ?_, ?_⟩
      · simp only [List.map_cons, List.map_nil, List.nil_append, List.cons_append] at h1 ⊢
        rw [compute_legs_cons]
        have hleg := compute_leg_inner_pt g bearing a n d
        rw [hleg, h1]
      · simp only [List.length_cons, h2]
      · rfl
      · refine ⟨t, rest0 ++ [_], by rw [List.reverse_cons, h4, List.cons_append], h5, h6, ?_⟩
        rcases h7 with h7 | ⟨p, rest2, h8, h9⟩
        · subst h7
          exact Or.inr ⟨_, [], rfl, rfl⟩
        · subst h8
          exact Or.inr ⟨p, rest2 ++ [_], by rw [List.cons_append], h9⟩
    | cons m ns3 =>
      refine ⟨{ src := resolveWP g a,
                current_name := (match a with
                                 | WP.node s => g.edgeName s n
                                 | WP.pt _ => none),
                length := (match a with
                           | WP.node s => g.edgeLength s n
                           | WP.pt _ => none),
                mid := g.coordOf n,
                next_name := g.edgeName n m,
                dst := some (g.coordOf m),
                angle := (match a with
                          | WP.node s => some (compute_angle bearing g.coordOf s n m)
                          | WP.pt _ => none) } :: raw2, ?_, ?_, ?_, ?_⟩
      · simp only [List.map_cons, List.map_nil, List.nil_append, List.cons_append] at h1 ⊢
        rw [compute_legs_cons]
        have hleg := compute_leg_inner_node g bearing a n m
        rw [hleg, h1]
      · simp only [List.length_cons, h2]
      · rfl
      · refine ⟨t, rest0 ++ [_], by rw [List.reverse_cons, h4, List.cons_append], h5, h6, ?_⟩
        rcases h7 with h7 | ⟨p, rest2, h8, h9⟩
        · exfalso
          have hlen : raw2.reverse.length = 1 := by rw [h4, h7]; rfl
          rw [List.length_reverse, h2] at hlen
          simp at hlen
        · subst h8
          exact Or.inr ⟨p, rest2 ++ [_], by rw [List.cons_append], h9⟩

/-- The last-mile pass returns the leg list unchanged when there are fewer
than 3 legs. -/
theorem simplify_last_mile_short (hav : Coordinates → Coordinates → ℚ)
    (ds : List RouteLeg) (h : ¬ 3 ≤ ds.length) :
    simplify_last_mile hav ds = some ds := by
  unfold simplify_last_mile
  rw [if_neg h]

/-- The trigger condition is false when there are fewer than 3 legs. -/
theorem simplification_triggers_short (hav : Coordinates → Coordinates → ℚ)
    (ds : List RouteLeg) (h : ¬ 3 ≤ ds.length) :
    simplification_triggers hav ds = false := by
  unfold simplification_triggers
  rw [if_neg h]

/-- Value of the last-mile pass and of its trigger condition on a leg list of
at least 3 legs whose reversal and penultimate `dst` are exposed. -/
theorem simplify_last_mile_of_reverse (hav : Coordinates → Coordinates → ℚ)
    (ds : List RouteLeg) (t p : RouteLeg) (rest : List RouteLeg)
    (pd : Coordinates) (h3 : 3 ≤ ds.length)
    (hrev : ds.reverse = t :: p :: rest) (hdst : p.dst = some pd) :
    simplify_last_mile hav ds =
      (if hav p.src pd > hav p.mid pd then
        some ((({ p with mid := pd, dst := none, length := some (haversine_m hav p.src pd) } : RouteLeg) :: rest).reverse)
      else some ds) ∧
    simplification_triggers hav ds = decide (hav p.src pd > hav p.mid pd) := by
  constructor
  · unfold simplify_last_mile
    rw [if_pos h3, hrev]
    dsimp only
    rw [hdst]
  · unfold simplification_triggers
    rw [if_pos h3, hrev]
    dsimp only
    rw [hdst]

/-- C4: with a non-empty path, leg building over
`[start] + path + [end] + [sentinel]` yields exactly `path.length + 1` legs
when the last-mile simplification does not trigger and exactly `path.length`
legs when it does. -/
theorem get_directions_leg_count (g : GraphView)
    (bearing hav : Coordinates → Coordinates → ℚ)
    (src_coords dst_coords : Coordinates) (path : List OSMid)
    (_hne : path ≠ []) :
    ∃ raw ds,
      compute_legs g bearing (route_waypoints src_coords dst_coords path) = some raw ∧
      get_directions g bearing hav src_coords dst_coords path = some ds ∧
      (simplification_triggers hav raw = false → ds.length = path.length + 1) ∧
      (simplification_triggers hav raw = true → ds.length = path.length) := by
  obtain ⟨raw, h1, h2, h3, t, rest, h4, h5, h6, h7⟩ :=
    compute_legs_shape g bearing dst_coords path (WP.pt src_coords)
  have h1' : compute_legs g bearing (route_waypoints src_coords dst_coords path) =
      some raw := h1
  have hget : get_directions g bearing hav src_coords dst_coords path =
      simplify_last_mile hav raw := by
    unfold get_directions
    rw [h1']
  by_cases h8 : 3 ≤ raw.length
  · rcases h7 with h7 | ⟨p, rest2, h9, h10⟩
    · exfalso
      subst h7
      have hlen := congrArg List.length h4
      rw [List.length_reverse] at hlen
      simp at hlen
      omega
    · subst h9
      obtain ⟨hsimp, htrig⟩ :=
        simplify_last_mile_of_reverse hav raw t p rest2 dst_coords h8 h4 h10
      have hlen4 := congrArg List.length h4
      rw [List.length_reverse] at hlen4
      simp only [List.length_cons] at hlen4
      by_cases hcmp : hav p.src dst_coords > hav p.mid dst_coords
      · refine ⟨raw,
          (({ p with mid := dst_coords, dst := none, length := some (haversine_m hav p.src dst_coords) } : RouteLeg) :: rest2).reverse,
          h1', ?_, ?_, ?_⟩
        · rw [hget, hsimp, if_pos hcmp]
        · intro hfalse
          rw [htrig, decide_eq_false_iff_not] at hfalse
          exact absurd hcmp hfalse
        · intro _
          rw [List.length_reverse, List.length_cons]
          omega
      · refine ⟨raw, raw, h1', ?_, ?_, ?_⟩
        · rw [hget, hsimp, if_neg hcmp]
        · intro _
          exact h2
        · intro htrue
          rw [htrig] at htrue
          exact absurd (of_decide_eq_true htrue) hcmp
  · refine ⟨raw, raw, h1', ?_, ?_, ?_⟩
    · rw [hget, simplify_last_mile_short hav raw h8]
    · intro _
      exact h2
    · intro htrue
      rw [simplification_triggers_short hav raw h8] at htrue
      exact Bool.noConfusion htrue

/-- Witness for C4 on the demo graph with the one-node path `[5]`. -/
theorem get_directions_leg_count_witness :
    ∃ raw ds,
      compute_legs gEx bearingZero (route_waypoints (0, 0) (1, 1) [5]) = some raw ∧
      get_directions gEx bearingZero havZero (0, 0) (1, 1) [5] = some ds ∧
      (simplification_triggers havZero raw = false → ds.length = [(5 : OSMid)].length + 1) ∧
      (simplification_triggers havZero raw = true → ds.length = [(5 : OSMid)].length) :=
  get_directions_leg_count gEx bearingZero havZero (0, 0) (1, 1) [5] (by simp)

/-- C5: the built route has its last two legs collapsed (penultimate
checkpoint replaced by its to-point, to-point removed, length recomputed,
last leg dropped) if and only if there are at least 3 legs and the
penultimate leg's from-to distance exceeds its checkpoint-to distance;
otherwise the leg list passes through the last-mile pass unchanged. -/
theorem get_directions_last_mile_iff (g : GraphView)
    (bearing hav : Coordinates → Coordinates → ℚ)
    (src_coords dst_coords : Coordinates) (path : List OSMid)
    (_hne : path ≠ []) :
    ∃ raw,
      compute_legs g bearing (route_waypoints src_coords dst_coords path) = some raw ∧
      ((∃ t p rest pd, raw.reverse = t :: p :: rest ∧ 3 ≤ raw.length ∧
          p.dst = some pd ∧ hav p.src pd > hav p.mid pd ∧
          get_directions g bearing hav src_coords dst_coords path =
            some ((({ p with mid := pd, dst := none, length := some (haversine_m hav p.src pd) } : RouteLeg) :: rest).reverse)) ∨
       ((¬ ∃ t p rest pd, raw.reverse = t :: p :: rest ∧ 3 ≤ raw.length ∧
           p.dst = some pd ∧ hav p.src pd > hav p.mid pd) ∧
        get_directions g bearing hav src_coords dst_coords path = some raw)) := by
  obtain ⟨raw, h1, h2, h3, t, rest, h4, h5, h6, h7⟩ :=
    compute_legs_shape g bearing dst_coords path (WP.pt src_coords)
  have h1' : compute_legs g bearing (route_waypoints src_coords dst_coords path) =
      some raw := h1
  have hget : get_directions g bearing hav src_coords dst_coords path =
      simplify_last_mile hav raw := by
    unfold get_directions
    rw [h1']
  refine ⟨raw, h1', ?_⟩
  by_cases h8 : 3 ≤ raw.length
  · rcases h7 with h7 | ⟨p, rest2, h9, h10⟩
    · exfalso
      subst h7
      have hlen := congrArg List.length h4
      rw [List.length_reverse] at hlen
      simp at hlen
      omega
    · subst h9
      obtain ⟨hsimp, _htrig⟩ :=
        simplify_last_mile_of_reverse hav raw t p rest2 dst_coords h8 h4 h10
      by_cases hcmp : hav p.src dst_coords > hav p.mid dst_coords
      · left
        exact ⟨t, p, rest2, dst_coords, h4, h8, h10, hcmp,
          by rw [hget, hsimp, if_pos hcmp]⟩
      · right
        refine ⟨?_, by rw [hget, hsimp, if_neg hcmp]⟩
        rintro ⟨t2, p2, rest3, pd2, hrev2, -, hdst2, hcmp2⟩
        rw [h4] at hrev2
        injection hrev2 with ht2 hrev3
        injection hrev3 with hp2 hrest3
        subst ht2
        subst hp2
        rw [h10] at hdst2
        injection hdst2 with hpd
        subst hpd
        exact absurd hcmp2 hcmp
  · right
    refine ⟨?_, by rw [hget, simplify_last_mile_short hav raw h8]⟩
    rintro ⟨t2, p2, rest3, pd2, -, h3le, -, -⟩
    exact h8 h3le

/-- Witness for C5 on the demo graph with the one-node path `[5]`. -/
theorem get_directions_last_mile_iff_witness :
    ∃ raw,
      compute_legs gEx bearingZero (route_waypoints (0, 0) (1, 1) [5]) = some raw ∧
      ((∃ t p rest pd, raw.reverse = t :: p :: rest ∧ 3 ≤ raw.length ∧
          p.dst = some pd ∧ havZero p.src pd > havZero p.mid pd ∧
          get_directions gEx bearingZero havZero (0, 0) (1, 1) [5] =
            some ((({ p with mid := pd, dst := none, length := some (haversine_m havZero p.src pd) } : RouteLeg) :: rest).reverse)) ∨
       ((¬ ∃ t p rest pd, raw.reverse = t :: p :: rest ∧ 3 ≤ raw.length ∧
           p.dst = some pd ∧ havZero p.src pd > havZero p.mid pd) ∧
        get_directions gEx bearingZero havZero (0, 0) (1, 1) [5] = some raw)) :=
  get_directions_last_mile_iff gEx bearingZero havZero (0, 0) (1, 1) [5] (by simp)

/-- C6: the first leg of the built route starts at the raw start coordinates
and the last leg's checkpoint is the raw destination coordinates, whether or
not the last-mile simplification triggers. -/
theorem get_directions_endpoints (g : GraphView)
    (bearing hav : Coordinates → Coordinates → ℚ)
    (src_coords dst_coords : Coordinates) (path : List OSMid)
    (_hne : path ≠ []) :
    ∃ ds, get_directions g bearing hav src_coords dst_coords path = some ds ∧
      ds.head?.map RouteLeg.src = some src_coords ∧
      ds.getLast?.map RouteLeg.mid = some dst_coords := by
  obtain ⟨raw, h1, h2, h3, t, rest, h4, h5, h6, h7⟩ :=
    compute_legs_shape g bearing dst_coords path (WP.pt src_coords)
  have h1' : compute_legs g bearing (route_waypoints src_coords dst_coords path) =
      some raw := h1
  have hget : get_directions g bearing hav src_coords dst_coords path =
      simplify_last_mile hav raw := by
    unfold get_directions
    rw [h1']
  have h3' : raw.head?.map RouteLeg.src = some src_coords := h3
  have hlast : raw.getLast?.map RouteLeg.mid = some dst_coords := by
    rw [← List.head?_reverse, h4]
    simp [h5]
  by_cases h8 : 3 ≤ raw.length
  · rcases h7 with h7 | ⟨p, rest2, h9, h10⟩
    · exfalso
      subst h7
      have hlen := congrArg List.length h4
      rw [List.length_reverse] at hlen
      simp at hlen
      omega
    · subst h9
      obtain ⟨hsimp, _htrig⟩ :=
        simplify_last_mile_of_reverse hav raw t p rest2 dst_coords h8 h4 h10
      by_cases hcmp : hav p.src dst_coords > hav p.mid dst_coords
      · refine ⟨(({ p with mid := dst_coords, dst := none, length := some (haversine_m hav p.src dst_coords) } : RouteLeg) :: rest2).reverse,
          by rw [hget, hsimp, if_pos hcmp], ?_, ?_⟩
        · have hraw : raw = (t :: p :: rest2).reverse := by
            rw [← h4, List.reverse_reverse]
          have hrest2ne : rest2 ≠ [] := by
            intro hn
            subst hn
            have hlen := congrArg List.length h4
            rw [List.length_reverse] at hlen
            simp at hlen
            omega
          have hrevne : rest2.reverse ≠ [] := by
            simpa using hrest2ne
          have e1 : ((({ p with mid := dst_coords, dst := none, length := some (haversine_m hav p.src dst_coords) } : RouteLeg) :: rest2).reverse).head? =
              rest2.reverse.head? := by
            rw [List.reverse_cons]
            exact List.head?_append_of_ne_nil _ hrevne
          have e2 : raw.head? = rest2.reverse.head? := by
            rw [hraw, List.reverse_cons, List.reverse_cons,
              List.head?_append_of_ne_nil _ (by simp),
              List.head?_append_of_ne_nil _ hrevne]
          rw [e1, ← e2]
          exact h3'
        · rw [← List.head?_reverse, List.reverse_reverse]
          rfl
      · exact ⟨raw, by rw [hget, hsimp, if_neg hcmp], h3', hlast⟩
  · exact ⟨raw, by rw [hget, simplify_last_mile_short hav raw h8], h3', hlast⟩

/-- Witness for C6 on the demo graph with the one-node path `[5]`. -/
theorem get_directions_endpoints_witness :
    ∃ ds, get_directions gEx bearingZero havZero (0, 0) (1, 1) [5] = some ds ∧
      ds.head?.map RouteLeg.src = some ((0 : ℚ), (0 : ℚ)) ∧
      ds.getLast?.map RouteLeg.mid = some ((1 : ℚ), (1 : ℚ)) :=
  get_directions_endpoints gEx bearingZero havZero (0, 0) (1, 1) [5] (by simp)
